import Mathlib

/-!
Shallow embedding of the resilient paginated-harvest engine in
`src/ab_scraper_visible.py` (repository guruprassandh/WebCrawler), together
with theorems settling the frozen claims about it.

Conventions: Python strings are modelled as `String`/`List Char`; machine
integers as `Nat`/`Int`; fallible Python code as `Option`/`Except`;
the network, browser and clock are passed in as explicit environments
(functions from attempt/page/target index to outcome).  Every definition is
translated from the source; the few definitions written from the spec's
words instead are explicitly marked as such in their doc comments.
-/

namespace WebCrawler

/-- Python's default whitespace set for `str.strip()` (the ASCII part, which
is all the engine ever meets in CSV cells). -/
def isPySpace (c : Char) : Bool :=
  c = ' ' || c = '\t' || c = '\n' || c = '\r' || c = '\x0b' || c = '\x0c'

/-- Python `s.strip()` on the character list of a string. -/
def pyStripChars (cs : List Char) : List Char :=
  ((cs.dropWhile isPySpace).reverse.dropWhile isPySpace).reverse

/-- Python `s.strip()`. -/
def pyStrip (s : String) : String := ⟨pyStripChars s.data⟩

/-- Python `url.rstrip("/")`: drop every trailing slash. -/
def rstripSlash (cs : List Char) : List Char :=
  (cs.reverse.dropWhile (· = '/')).reverse

/-- Python `s.split("/")`: keeps empty segments, and `""` splits to `[""]`;
the result is never the empty list. -/
def splitSlash : List Char → List (List Char)
  | [] => [[]]
  | c :: cs =>
    let r := splitSlash cs
    if c = '/' then [] :: r
    else
      match r with
      | [] => [[c]]
      | h :: t => (c :: h) :: t

/-- Python `parts[-1]` on the result of a split (which is never empty). -/
def lastSegment (cs : List Char) : List Char := (splitSlash cs).getLastD []

/-- The literal pattern `"-reviews"` used by the urlname extractor. -/
def revSuffix : List Char := "-reviews".data

/-- Fuel-indexed worker for `removeAll`; fuel bounds the number of scanned
positions, and `removeAll` supplies enough fuel for the whole list. -/
def removeAllAux (pat : List Char) : Nat → List Char → List Char
  | 0, cs => cs
  | _ + 1, [] => []
  | fuel + 1, c :: cs =>
    if pat.isPrefixOf (c :: cs) && !pat.isEmpty then
      removeAllAux pat fuel ((c :: cs).drop pat.length)
    else c :: removeAllAux pat fuel cs

/-- Python `s.replace(pat, "")` for a non-empty `pat`: delete every
non-overlapping occurrence, scanning left to right. -/
def removeAll (pat cs : List Char) : List Char := removeAllAux pat cs.length cs

/-- Character-list core of the source's `extract_urlname_from_url`:
take the final path segment of the slash-stripped URL; if it ends with
`-reviews`, apply `replace("-reviews", "")` to it, else return it as is. -/
def extractUrlnameChars (cs : List Char) : List Char :=
  let last := lastSegment (rstripSlash cs)
  if revSuffix.isSuffixOf last then removeAll revSuffix last else last

/-- Source `extract_urlname_from_url`.  The body's string operations cannot
raise in Python, so the `except` branch returning `None` is unreachable and
the function always yields `Some`. -/
def extract_urlname_from_url (url : String) : Option String :=
  some ⟨extractUrlnameChars url.data⟩

/-- Modelled from the spec's words for claim C8 (refinement comparison):
the URL's final path segment with one optional *trailing* `-reviews`
suffix stripped, returned unchanged when it does not end in `-reviews`. -/
def spec_urlname (url : String) : String :=
  let last := lastSegment (rstripSlash url.data)
  if revSuffix.isSuffixOf last then ⟨last.take (last.length - revSuffix.length)⟩
  else ⟨last⟩

/-- JSON values as the engine sees them (numbers restricted to integers,
which covers every field the engine reads). -/
inductive Json where
  | null : Json
  | bool (b : Bool) : Json
  | num (n : Int) : Json
  | str (s : String) : Json
  | arr (xs : List Json) : Json
  | obj (kvs : List (String × Json)) : Json

/-- Python truthiness of a JSON value (`None`, `False`, `0`, `""`, `[]`,
`{}` are falsy). -/
def Json.truthy : Json → Bool
  | .null => false
  | .bool b => b
  | .num n => n != 0
  | .str s => !s.data.isEmpty
  | .arr xs => !xs.isEmpty
  | .obj kvs => !kvs.isEmpty

/-- Python's `a or b` specialised to JSON values. -/
def pyOr (a b : Json) : Json := if a.truthy then a else b

/-- Python `d.get(k, default)`: first-match lookup on a dict, the given
default when the key is absent, and an `AttributeError` (modelled as
`Except.error`) when the receiver is not a dict. -/
def jGetD (j : Json) (k : String) (dflt : Json) : Except Unit Json :=
  match j with
  | .obj kvs =>
    match kvs.find? (fun kv => kv.1 = k) with
    | some kv => .ok kv.2
    | none => .ok dflt
  | _ => .error ()

/-- Python `d.get(k)` (default `None`). -/
def jGet (j : Json) (k : String) : Except Unit Json := jGetD j k .null

/-- Python `int(s)` on a string: optional surrounding whitespace, optional
sign, then at least one decimal digit; anything else raises. -/
def pyStrToInt (s : String) : Except Unit Int :=
  let cs := pyStripChars s.data
  let core : List Char → Except Unit Int := fun ds =>
    if ds.isEmpty || !ds.all Char.isDigit then .error ()
    else .ok (ds.foldl (fun acc d => acc * 10 + (d.toNat - '0'.toNat : Int)) 0)
  match cs with
  | '-' :: rest => (core rest).map (fun n => -n)
  | '+' :: rest => core rest
  | _ => core cs

/-- Python `int(x)` on a JSON value: integers pass through, booleans map to
0/1, decimal strings are parsed, everything else raises. -/
def pyInt : Json → Except Unit Int
  | .num n => .ok n
  | .bool b => .ok (if b then 1 else 0)
  | .str s => pyStrToInt s
  | _ => .error ()

/-- Source `extract_company_id`: inside a `try`, compute
`data = seo_json.get("data") or seo_json`, `company = data.get("company")
or {}`, `cid = company.get("id")`, and return `int(cid) if cid else None`;
any exception in the body yields `None`. -/
def extract_company_id (seo_json : Json) : Option Int :=
  let body : Except Unit (Option Int) :=
    match jGet seo_json "data" with
    | .error e => .error e
    | .ok d0 =>
      match jGet (pyOr d0 seo_json) "company" with
      | .error e => .error e
      | .ok c0 =>
        match jGet (pyOr c0 (Json.obj [])) "id" with
        | .error e => .error e
        | .ok cid =>
          if cid.truthy then
            match pyInt cid with
            | .error e => .error e
            | .ok n => .ok (some n)
          else .ok none
  match body with
  | .ok r => r
  | .error _ => none

/-- Modelled from the spec's words as amended for claim C9 (refinement
comparison): resolve the nested `id` field along the same
`data`-or-root / `company`-or-empty path; yield `none` when any lookup
step fails, when the value is falsy (absent, `null`, `false`, `0`, empty
string or container), or when it is not convertible to an integer;
otherwise yield its integer conversion; never raise. -/
def specExtractIdAmended (seo_json : Json) : Option Int :=
  match jGet seo_json "data" with
  | .error _ => none
  | .ok d0 =>
    match jGet (pyOr d0 seo_json) "company" with
    | .error _ => none
    | .ok c0 =>
      match jGet (pyOr c0 (Json.obj [])) "id" with
      | .error _ => none
      | .ok cid =>
        if cid.truthy then
          match pyInt cid with
          | .ok n => some n
          | .error _ => none
        else none

/-- Outcome of the one `requests.get` issued by the discoverer's second
phase: either the request itself raised, or it produced a status code and
a body (whose JSON decoding may itself raise). -/
inductive DataResp where
  | netErr : DataResp
  | resp (status : Nat) (body : Except Unit Json) : DataResp

/-- Shared pagination read of both discovery phases:
`int(((root.get("data") or {}).get("pagination") or {}).get("totalPages", 0))`. -/
def paginationTotal (root : Json) : Except Unit Int := do
  let d0 ← jGet root "data"
  let p0 ← jGet (pyOr d0 (Json.obj [])) "pagination"
  let t0 ← jGetD (pyOr p0 (Json.obj [])) "totalPages" (Json.num 0)
  pyInt t0

/-- The discoverer's `if total > 1: return total` guard, with any exception
from the enclosing `try` swallowed into `none`. -/
def returnIfGT1 (e : Except Unit Int) : Option Int :=
  match e with
  | .ok t => if 1 < t then some t else none
  | .error _ => none

/-- First phase of `discover_total_pages`: the SEO metadata probe's result
(already `None` on any HTTP or parse failure), guarded by `if seo:`. -/
def discoverPhase1 (seoResult : Option Json) : Option Int :=
  match seoResult with
  | none => none
  | some seo => if seo.truthy then returnIfGT1 (paginationTotal seo) else none

/-- Second phase of `discover_total_pages`: one direct request to the data
endpoint for page 1, used only when it returns status 200. -/
def discoverPhase2 (d : DataResp) : Option Int :=
  match d with
  | .netErr => none
  | .resp status body =>
    if status = 200 then
      returnIfGT1 (do
        let b ← body
        paginationTotal b)
    else none

/-- Source `discover_total_pages`, with the two network interactions passed
in as explicit environments: try the SEO phase, then the data-endpoint
phase, and default to 1; each phase sits in its own exception-swallowing
`try`, so the function never propagates an exception. -/
def discover_total_pages (seoResult : Option Json) (dataResp : DataResp) : Int :=
  match discoverPhase1 seoResult with
  | some t => t
  | none =>
    match discoverPhase2 dataResp with
    | some t => t
    | none => 1

/-- The source's retry-loop constant `RETRIES = 5`. -/
def RETRIES : Nat := 5

/-- What one attempt of `fetch_page_json` observes: a parsed 200 body, a
rate-limit status (429 or 503), another status code, or an exception
(network error or body-decode failure). -/
inductive FetchOutcome where
  | ok (body : Json) : FetchOutcome
  | rateLimited : FetchOutcome
  | otherStatus (code : Nat) : FetchOutcome
  | exc (msg : String) : FetchOutcome

/-- Result of the whole retry loop: the returned pair (data or error
string), the backoff sleeps performed, in order, and how many attempts
were made. -/
structure FetchResult where
  result : Except String Json
  sleeps : List ℚ
  attemptsMade : Nat

/-- Worker for `fetch_page_json`: `attempt` is the loop variable,
`remaining` the attempts left (the loop runs `for attempt in
range(RETRIES)`), `sleeps` the backoffs accumulated so far.  A 200 returns
the body; 429/503 sleeps `2**attempt + jitter` and retries (also on the
last attempt, after which the loop exits to `max_retries_exceeded`); any
other status returns `status_<code>`; an exception retries with the same
backoff unless it was the final attempt, which returns the message. -/
def fetchAux (out : Nat → FetchOutcome) (jit : Nat → ℚ) :
    Nat → Nat → List ℚ → FetchResult
  | attempt, 0, sleeps =>
    ⟨.error "max_retries_exceeded", sleeps, attempt⟩
  | attempt, r + 1, sleeps =>
    match out attempt with
    | .ok body => ⟨.ok body, sleeps, attempt + 1⟩
    | .rateLimited =>
      fetchAux out jit (attempt + 1) r (sleeps ++ [2 ^ attempt + jit attempt])
    | .otherStatus code => ⟨.error ("status_" ++ toString code), sleeps, attempt + 1⟩
    | .exc msg =>
      if attempt < RETRIES - 1 then
        fetchAux out jit (attempt + 1) r (sleeps ++ [2 ^ attempt + jit attempt])
      else ⟨.error msg, sleeps, attempt + 1⟩

/-- Source `CompanyFetcher.fetch_page_json` for one page, with the network
passed in as the per-attempt outcome environment `out` and the
`random.random()` jitter stream as `jit`. -/
def fetch_page_json (out : Nat → FetchOutcome) (jit : Nat → ℚ) : FetchResult :=
  fetchAux out jit 0 RETRIES []

/-- The source's window size (`batch_size = 50` in `CompanyFetcher.run`). -/
def WINDOW : Nat := 50

/-- One Python `range(start, stop)` window of page numbers. -/
def pageWindow (total start : Nat) : List Nat :=
  List.range' start (min (start + WINDOW) (total + 1) - start)

/-- The per-window accumulation of `CompanyFetcher.run`:
`for ok, cnt in results: if ok: pages += 1; reviews += cnt`. -/
def tallyWindow (results : List (Bool × Nat)) (acc : Nat × Nat) : Nat × Nat :=
  results.foldl (fun a r => if r.1 then (a.1 + 1, a.2 + r.2) else a) acc

/-- Fuel-indexed worker for `CompanyFetcher.run`'s window loop
(`for start in range(1, total_pages + 1, batch_size)`); `res p` is the
`(ok, count)` pair that `process_page` produces for page `p`
(`asyncio.gather` returns the window's results in dispatch order).
`run` supplies one unit of fuel per possible window. -/
def runWindows (res : Nat → Bool × Nat) (total : Nat) :
    Nat → Nat → Nat × Nat → Nat × Nat
  | 0, _, acc => acc
  | fuel + 1, start, acc =>
    if start ≤ total then
      runWindows res total fuel (start + WINDOW)
        (tallyWindow ((pageWindow total start).map res) acc)
    else acc

/-- Source `CompanyFetcher.run`: dispatch pages `1..total` in windows of
`WINDOW`, await each window, and return
`(pages_fetched, reviews_written)`. -/
def CompanyFetcher.run (total : Nat) (res : Nat → Bool × Nat) : Nat × Nat :=
  runWindows res total (total + 1) 1 (0, 0)

/-- The window decomposition `CompanyFetcher.run` iterates over, for
stating claim C3 (same loop structure, collecting the page lists). -/
def windowsAux (total : Nat) : Nat → Nat → List (List Nat)
  | 0, _ => []
  | fuel + 1, start =>
    if start ≤ total then pageWindow total start :: windowsAux total fuel (start + WINDOW)
    else []

/-- All windows of a run over `total` pages. -/
def runWindowList (total : Nat) : List (List Nat) :=
  windowsAux total (total + 1) 1

/-- The outcome dict built by `process_company` for one target, reduced to
the fields the checkpoint claims depend on (`process_company` catches every
exception and always returns such a dict). -/
structure CompanyResult where
  success : Bool
  url : String
  index : Nat
deriving DecidableEq

/-- The checkpoint dict (`processed`, `failed`, `last_index`), as loaded
from and written to `batch_progress.json`. -/
structure Progress where
  processed : List CompanyResult
  failed : List CompanyResult
  last_index : Int
deriving DecidableEq

/-- Source `load_batch_progress`: the file's state is `none` when the
checkpoint file does not exist, `some none` when it exists but fails to
parse, and `some (some p)` when it parses to `p`; both failure paths fall
back to `{"processed": [], "failed": [], "last_index": -1}`. -/
def load_batch_progress (file : Option (Option Progress)) : Progress :=
  match file with
  | some (some p) => p
  | some none => ⟨[], [], -1⟩
  | none => ⟨[], [], -1⟩

/-- What one run of `process_batch` did, beyond its final in-memory state:
`saves` lists, in order, every checkpoint value handed to
`save_batch_progress`, and `attempted` lists, in order, every index for
which `process_company` was invoked. -/
structure BatchTrace where
  final : Progress
  saves : List Progress
  attempted : List Nat
  skipped : Nat
deriving DecidableEq

/-- The stripped target string at index `i` of the list
(`companies[i].strip()`; every index the loop visits is in range, so the
default is never taken). -/
def targetAt (companies : List String) (i : Nat) : String :=
  pyStrip (companies.getD i "")

/-- Loop body of `process_batch` over the remaining indices of
`range(start_index, total)`: strip the target, skip it when blank,
otherwise run `process_company` (environment `runC`), append the outcome to
`processed` or `failed`, set `last_index` to the current index, and save
the full checkpoint before moving on. -/
def batchLoop (runC : Nat → String → CompanyResult) (companies : List String) :
    List Nat → Progress → List Progress → List Nat → Nat → BatchTrace
  | [], prog, saves, att, sk => ⟨prog, saves, att, sk⟩
  | i :: rest, prog, saves, att, sk =>
    let url := targetAt companies i
    if url = "" then
      batchLoop runC companies rest prog saves att (sk + 1)
    else
      let result := runC i url
      let prog' : Progress :=
        if result.success then
          ⟨prog.processed ++ [result], prog.failed, (i : Int)⟩
        else
          ⟨prog.processed, prog.failed ++ [result], (i : Int)⟩
      batchLoop runC companies rest prog' (saves ++ [prog']) (att ++ [i]) sk

/-- Source `process_batch`: load gives `loaded`; `start_index =
progress["last_index"] + 1 if args.resume else 0`; then the loop over
`range(start_index, len(companies))`.  `Int.toNat` is exact for every
checkpoint the program itself writes or defaults to (`last_index ≥ -1`). -/
def process_batch (runC : Nat → String → CompanyResult) (companies : List String)
    (resume : Bool) (loaded : Progress) : BatchTrace :=
  let start : Nat := (if resume then loaded.last_index + 1 else 0).toNat
  batchLoop runC companies (List.range' start (companies.length - start)) loaded [] [] 0

/-- Whether index `i` of the target list survives the blank-skip test. -/
def nonBlank (companies : List String) (i : Nat) : Bool :=
  targetAt companies i ≠ ""

/-- The checkpoint value obtained from `prog` by recording one target
outcome: append to `processed` on success, else to `failed`, and set
`last_index` to the target's index.  (This is the spec's "append its
outcome ... set `lastIndex` to the current index" step, used to state what
each saved checkpoint contains.) -/
def applyOutcome (prog : Progress) (r : CompanyResult) (i : Nat) : Progress :=
  if r.success then ⟨prog.processed ++ [r], prog.failed, (i : Int)⟩
  else ⟨prog.processed, prog.failed ++ [r], (i : Int)⟩

/-- The per-attempt checkpoint sequence starting from `prog`: element `j`
is the full checkpoint after the first `j + 1` attempted indices. -/
def savesFor (runC : Nat → String → CompanyResult) (companies : List String)
    (prog : Progress) : List Nat → List Progress
  | [] => []
  | i :: rest =>
    let prog' := applyOutcome prog (runC i (targetAt companies i)) i
    prog' :: savesFor runC companies prog' rest

/-- What one bootstrap attempt of `capture_cookies_visible_browser`
observes: either some exception escaped the attempt body (browser launch,
navigation, ...), or the attempt read back a cookie list. -/
inductive CookieAttempt where
  | exc (msg : String) : CookieAttempt
  | got (cookies : List (String × String)) : CookieAttempt

/-- Whether a bootstrap attempt succeeds (at least one cookie and no
exception). -/
def CookieAttempt.succeeds : CookieAttempt → Bool
  | .exc _ => false
  | .got cs => !cs.isEmpty

/-- Result of the whole bootstrap loop: the returned
`(cookie_string | None, error_message)` pair, the backoff sleeps performed
(in seconds, in order), and how many attempts were made. -/
structure CaptureResult where
  cookie : Option String
  error : String
  sleeps : List Nat
  attemptsMade : Nat
deriving DecidableEq

/-- The `"; ".join(f"{c['name']}={c['value']}" for c in cookies)` string. -/
def cookieString (cs : List (String × String)) : String :=
  String.intercalate "; " (cs.map (fun c => c.1 ++ "=" ++ c.2))

/-- Worker for `capture_cookies_visible_browser`: `attempt` is the loop
variable of `for attempt in range(max_attempts)`, `remaining` the attempts
left.  A non-empty cookie list returns `(cookie_str, "")`; an empty one
retries immediately (no sleep); an exception sleeps `2**attempt` and
retries, unless it happened on the final attempt, which returns the
descriptive message; exhausting the loop returns the generic message. -/
def captureAux (att : Nat → CookieAttempt) (maxA : Nat) :
    Nat → Nat → List Nat → CaptureResult
  | attempt, 0, sleeps =>
    ⟨none, "All cookie capture attempts failed", sleeps, attempt⟩
  | attempt, r + 1, sleeps =>
    match att attempt with
    | .got cs =>
      if !cs.isEmpty then ⟨some (cookieString cs), "", sleeps, attempt + 1⟩
      else captureAux att maxA (attempt + 1) r sleeps
    | .exc msg =>
      let emsg :=
        "Attempt " ++ toString (attempt + 1) ++ "/" ++ toString maxA ++ " failed: " ++ msg
      if attempt < maxA - 1 then
        captureAux att maxA (attempt + 1) r (sleeps ++ [2 ^ attempt])
      else ⟨none, emsg, sleeps, attempt + 1⟩

/-- Source `capture_cookies_visible_browser` with its default
`max_attempts = 3`, the browser interactions passed in as the per-attempt
environment `att`. -/
def capture_cookies_visible_browser (att : Nat → CookieAttempt) : CaptureResult :=
  captureAux att 3 0 3 []

/-- Source `main_async`, reduced to the part the claims are about: the CSV
reader's outcome is `csv` (`Except.error` when it raised), an empty target
list logs an error and returns normally (no batch run, no exception), and
otherwise the batch runs. -/
def main_async_run (csv : Except String (List String))
    (runC : Nat → String → CompanyResult) (resume : Bool) (loaded : Progress) :
    Except String (Option BatchTrace) :=
  match csv with
  | .error e => .error e
  | .ok companies =>
    if companies.isEmpty then .ok none
    else .ok (some (process_batch runC companies resume loaded))

/-- Source `main`: `sys.exit(1)` only when an exception reaches the
top-level handler; a normal return of `main_async` — including the
empty-input early return — ends the process with status 0. -/
def main_exit_code (csv : Except String (List String))
    (runC : Nat → String → CompanyResult) (resume : Bool) (loaded : Progress) : Nat :=
  match main_async_run csv runC resume loaded with
  | .ok _ => 0
  | .error _ => 1

/-- Number of pages whose fetch succeeded, as the spec describes it
(claim C3's comparison value). -/
def specPagesFetched (total : Nat) (res : Nat → Bool × Nat) : Nat :=
  ((List.range' 1 total).filter (fun p => (res p).1)).length

/-- Sum of record counts over exactly the successful pages, as the spec
describes it (claim C3's comparison value). -/
def specRecordsWritten (total : Nat) (res : Nat → Bool × Nat) : Nat :=
  (((List.range' 1 total).filter (fun p => (res p).1)).map (fun p => (res p).2)).sum

/-- Whether a bootstrap attempt ended in an exception (the only case whose
retry path sleeps). -/
def isExcAttempt : CookieAttempt → Bool
  | .exc _ => true
  | .got _ => false

theorem returnIfGT1_some {e : Except Unit Int} {t : Int} (h : returnIfGT1 e = some t) :
    1 < t := by
  unfold returnIfGT1 at h
  match e with
  | .error _ => simp at h
  | .ok v =>
    by_cases hv : 1 < v
    · simp only [if_pos hv, Option.some.injEq] at h
      exact h ▸ hv
    · simp [hv] at h

theorem discoverPhase1_some {s : Option Json} {t : Int}
    (h : discoverPhase1 s = some t) : 1 < t := by
  unfold discoverPhase1 at h
  split at h
  · simp at h
  · split at h
    · exact returnIfGT1_some h
    · simp at h

theorem discoverPhase2_some {d : DataResp} {t : Int}
    (h : discoverPhase2 d = some t) : 1 < t := by
  unfold discoverPhase2 at h
  split at h
  · simp at h
  · split at h
    · exact returnIfGT1_some h
    · simp at h

/-- C5: for every input, `discover_total_pages` returns an integer ≥ 1 and
never propagates an exception (it is a total function with every fallible
step modelled in `Except` and swallowed); when the metadata probe reports
`totalPages = 1` but the data endpoint's page-1 response reports
`totalPages = 7` it returns 7; when neither phase yields a value greater
than 1 it returns 1. -/
theorem discover_total_pages_contract :
    (∀ (s : Option Json) (d : DataResp), 1 ≤ discover_total_pages s d)
    ∧ discover_total_pages
        (some (Json.obj
          [("data", Json.obj [("pagination", Json.obj [("totalPages", Json.num 1)])])]))
        (DataResp.resp 200 (.ok (Json.obj
          [("data", Json.obj [("pagination", Json.obj [("totalPages", Json.num 7)])])])))
      = 7
    ∧ (∀ (s : Option Json) (d : DataResp),
        discoverPhase1 s = none → discoverPhase2 d = none →
          discover_total_pages s d = 1) := by
  refine ⟨?_, by rfl, ?_⟩
  · intro s d
    unfold discover_total_pages
    cases h1 : discoverPhase1 s with
    | some t => exact le_of_lt (discoverPhase1_some h1)
    | none =>
      cases h2 : discoverPhase2 d with
      | some t => exact le_of_lt (discoverPhase2_some h2)
      | none => exact le_refl 1
  · intro s d h1 h2
    unfold discover_total_pages
    rw [h1, h2]

/-- Witness for C5: both phases yielding nothing is realised concretely by
a failed probe and a network error, and the discoverer then returns 1. -/
theorem discover_total_pages_contract_witness :
    discoverPhase1 none = none ∧ discoverPhase2 DataResp.netErr = none
    ∧ discover_total_pages none DataResp.netErr = 1 :=
  ⟨rfl, rfl, discover_total_pages_contract.2.2 none DataResp.netErr rfl rfl⟩

/-- C7 counterexample: with an input source yielding zero targets, the
modelled `main` path ends with process exit status 0, not the non-zero
status the claim requires (`main_async` logs and returns normally, and
`sys.exit(1)` fires only when an exception reaches `main`'s handler). -/
theorem empty_input_exit_status_zero :
    main_exit_code (.ok []) (fun i u => ⟨false, u, i⟩) false ⟨[], [], -1⟩ = 0 := rfl

/-- C7 amended: when the input source yields zero targets, the run
terminates before any target is attempted (the batch never runs, so no
outcome exists), but with process exit status 0; a non-zero status arises
only when the input source raises (e.g. an unreadable CSV). -/
theorem empty_input_aborts_before_batch (runC : Nat → String → CompanyResult)
    (resume : Bool) (loaded : Progress) :
    main_async_run (.ok []) runC resume loaded = .ok none
    ∧ main_exit_code (.ok []) runC resume loaded = 0
    ∧ (∀ e, main_exit_code (.error e) runC resume loaded = 1) :=
  ⟨rfl, rfl, fun _ => rfl⟩

/-- C8 counterexample: for a URL whose final path segment is
`x-reviews-reviews`, the source strips every occurrence of `-reviews`
(yielding `x`), while the claim's trailing-suffix strip yields
`x-reviews`. -/
theorem urlname_counterexample :
    extract_urlname_from_url "https://a.b/x-reviews-reviews" = some "x"
    ∧ spec_urlname "https://a.b/x-reviews-reviews" = "x-reviews"
    ∧ extract_urlname_from_url "https://a.b/x-reviews-reviews"
        ≠ some (spec_urlname "https://a.b/x-reviews-reviews") := by
  refine ⟨by decide, by decide, by decide⟩

/-- C8 amended: the derived identifier is the URL's final path segment
with every occurrence of `-reviews` removed when the segment ends in
`-reviews`; a final segment not ending in `-reviews` is returned unchanged
(and then agrees with the spec's trailing-suffix description). -/
theorem urlname_amended (url : String) :
    extract_urlname_from_url url =
      some (if revSuffix.isSuffixOf (lastSegment (rstripSlash url.data))
            then (⟨removeAll revSuffix (lastSegment (rstripSlash url.data))⟩ : String)
            else ⟨lastSegment (rstripSlash url.data)⟩)
    ∧ (revSuffix.isSuffixOf (lastSegment (rstripSlash url.data)) = false →
        extract_urlname_from_url url = some (spec_urlname url)) := by
  constructor
  · unfold extract_urlname_from_url extractUrlnameChars
    by_cases h : revSuffix.isSuffixOf (lastSegment (rstripSlash url.data)) <;> simp [h]
  · intro h
    unfold extract_urlname_from_url extractUrlnameChars spec_urlname
    simp [h]

/-- Witness for C8 amended: a URL whose final segment does not end in
`-reviews` is returned unchanged. -/
theorem urlname_amended_witness :
    revSuffix.isSuffixOf (lastSegment (rstripSlash "https://a.b/acme".data)) = false
    ∧ extract_urlname_from_url "https://a.b/acme" = some (spec_urlname "https://a.b/acme") :=
  ⟨by decide, (urlname_amended "https://a.b/acme").2 (by decide)⟩

theorem extract_company_id_eq_spec (j : Json) :
    extract_company_id j = specExtractIdAmended j := by
  unfold extract_company_id specExtractIdAmended
  cases h1 : jGet j "data" with
  | error e => simp only [h1]
  | ok d0 =>
    cases h2 : jGet (pyOr d0 j) "company" with
    | error e => simp only [h1, h2]
    | ok c0 =>
      cases h3 : jGet (pyOr c0 (Json.obj [])) "id" with
      | error e => simp only [h1, h2, h3]
      | ok cid =>
        by_cases ht : cid.truthy = true
        · cases h4 : pyInt cid with
          | error e => simp only [h1, h2, h3, h4, ht, if_pos]
          | ok n => simp only [h1, h2, h3, h4, ht, if_pos]
        · simp only [h1, h2, h3, Bool.not_eq_true] at ht ⊢
          simp only [ht, Bool.false_eq_true, if_false]

/-- C9 counterexample: the nested `id` field is present and numeric (it
holds the integer 0), yet `extract_company_id` returns `None`, because
`int(cid) if cid else None` treats the falsy value 0 as absent. -/
theorem company_id_zero_counterexample :
    jGet (Json.obj [("id", Json.num 0)]) "id" = .ok (Json.num 0)
    ∧ extract_company_id (Json.obj [("company", Json.obj [("id", Json.num 0)])]) = none :=
  ⟨rfl, rfl⟩

/-- C9 amended: `extract_company_id` never raises (it is total) and
returns `None` exactly when the nested identifier lookup fails, the value
is falsy (absent, `null`, `false`, `0`, or an empty string or container),
or the value is not convertible to an integer; whenever the identifier
holds a truthy value convertible to an integer — in particular any
non-zero number — it returns that integer. -/
theorem extract_company_id_amended :
    (∀ j : Json, extract_company_id j = specExtractIdAmended j)
    ∧ (∀ (kvs : List (String × Json)) (n : Int), n ≠ 0 →
        extract_company_id
          (Json.obj [("company", Json.obj (("id", Json.num n) :: kvs))]) = some n)
    ∧ (∀ kvs : List (String × Json),
        extract_company_id
          (Json.obj [("company", Json.obj (("id", Json.num 0) :: kvs))]) = none) := by
  refine ⟨extract_company_id_eq_spec, ?_, ?_⟩
  · intro kvs n h
    simp [extract_company_id, jGet, jGetD, pyOr, Json.truthy, pyInt, List.find?, h]
  · intro kvs
    simp [extract_company_id, jGet, jGetD, pyOr, Json.truthy, pyInt, List.find?]

/-- Witness for C9 amended: a non-zero numeric identifier is returned as
an integer. -/
theorem extract_company_id_amended_witness :
    (42 : Int) ≠ 0
    ∧ extract_company_id (Json.obj [("company", Json.obj [("id", Json.num 42)])]) = some 42 :=
  ⟨by decide, extract_company_id_amended.2.1 [] 42 (by decide)⟩

theorem ne_empty_of_head (s : String) (c : Char) (h : s.data.head? = some c) :
    s ≠ "" := by
  intro he
  subst he
  simp at h

/-- C6 counterexample: a run of three straight zero-cookie attempts makes
all 3 attempts but performs no backoff sleep at all, although the claim
requires sleeps of `2^0` and `2^1` seconds between the consecutive
attempts (the sleep sits only in the exception handler, which the
zero-cookies path never enters). -/
theorem capture_zero_cookies_counterexample :
    capture_cookies_visible_browser (fun _ => .got []) =
      ⟨none, "All cookie capture attempts failed", [], 3⟩
    ∧ (capture_cookies_visible_browser (fun _ => .got [])).sleeps ≠ [2 ^ 0, 2 ^ 1] :=
  ⟨rfl, by decide⟩

/-- C6 amended: the bootstrapper makes at most 3 attempts; it sleeps
`2^attempt` seconds after attempt number `attempt` exactly when that
attempt failed with an exception and another attempt follows — a
zero-cookies attempt retries immediately with no backoff; every
per-attempt exception is caught (the loop continues to the remaining
attempts); and on exhausting all attempts it returns the explicit failure
marker `None` together with a non-empty descriptive error string rather
than raising. -/
theorem capture_amended (att : Nat → CookieAttempt) :
    (capture_cookies_visible_browser att).attemptsMade ≤ 3
    ∧ (capture_cookies_visible_browser att).sleeps =
        ((List.range ((capture_cookies_visible_browser att).attemptsMade - 1)).filter
          (fun a => isExcAttempt (att a))).map (fun a => 2 ^ a)
    ∧ ((capture_cookies_visible_browser att).cookie = none →
        (capture_cookies_visible_browser att).error ≠ "")
    ∧ (∀ s, (capture_cookies_visible_browser att).cookie = some s →
        (capture_cookies_visible_browser att).error = "")
    ∧ ((∀ a, a < 3 → (att a).succeeds = false) →
        (capture_cookies_visible_browser att).attemptsMade = 3
          ∧ (capture_cookies_visible_browser att).cookie = none) := by
  rcases h0 : att 0 with m0 | cs0
  case got =>
    cases hcs0 : cs0.isEmpty
    case false =>
      have he : capture_cookies_visible_browser att = ⟨some (cookieString cs0), "", [], 1⟩ := by
        simp [capture_cookies_visible_browser, captureAux, h0, hcs0]
      rw [he]
      refine ⟨by norm_num, by simp, by simp, fun s _ => rfl, fun hyp => ?_⟩
      have := hyp 0 (by decide)
      rw [h0] at this
      simp [CookieAttempt.succeeds, hcs0] at this
    case true =>
      rcases h1 : att 1 with m1 | cs1
      case got =>
        cases hcs1 : cs1.isEmpty
        case false =>
          have he : capture_cookies_visible_browser att =
              ⟨some (cookieString cs1), "", [], 2⟩ := by
            simp [capture_cookies_visible_browser, captureAux, h0, hcs0, h1, hcs1]
          rw [he]
          refine ⟨by norm_num, ?_, by simp, fun s _ => rfl, fun hyp => ?_⟩
          · simp [List.range_succ, h0, isExcAttempt]
          · have := hyp 1 (by decide)
            rw [h1] at this
            simp [CookieAttempt.succeeds, hcs1] at this
        case true =>
          rcases h2 : att 2 with m2 | cs2
          case got =>
            cases hcs2 : cs2.isEmpty
            case false =>
              have he : capture_cookies_visible_browser att =
                  ⟨some (cookieString cs2), "", [], 3⟩ := by
                simp [capture_cookies_visible_browser, captureAux, h0, hcs0, h1, hcs1, h2, hcs2]
              rw [he]
              refine ⟨by norm_num, ?_, by simp, fun s _ => rfl, fun hyp => ?_⟩
              · simp [List.range_succ, h0, h1, isExcAttempt]
              · have := hyp 2 (by decide)
                rw [h2] at this
                simp [CookieAttempt.succeeds, hcs2] at this
            case true =>
              have he : capture_cookies_visible_browser att =
                  ⟨none, "All cookie capture attempts failed", [], 3⟩ := by
                simp [capture_cookies_visible_browser, captureAux, h0, hcs0, h1, hcs1, h2, hcs2]
              rw [he]
              refine ⟨by norm_num, ?_, fun _ => by decide, by simp, fun _ => ⟨rfl, rfl⟩⟩
              simp [List.range_succ, h0, h1, isExcAttempt]
          case exc =>
            have he : capture_cookies_visible_browser att =
                ⟨none, "Attempt " ++ toString 3 ++ "/" ++ toString 3 ++ " failed: " ++ m2,
                  [], 3⟩ := by
              simp [capture_cookies_visible_browser, captureAux, h0, hcs0, h1, hcs1, h2]
            rw [he]
            refine ⟨by norm_num, ?_, fun _ => ne_empty_of_head _ 'A' rfl, by simp,
              fun _ => ⟨rfl, rfl⟩⟩
            simp [List.range_succ, h0, h1, isExcAttempt]
      case exc =>
        rcases h2 : att 2 with m2 | cs2
        case got =>
          cases hcs2 : cs2.isEmpty
          case false =>
            have he : capture_cookies_visible_browser att =
                ⟨some (cookieString cs2), "", [2], 3⟩ := by
              simp [capture_cookies_visible_browser, captureAux, h0, hcs0, h1, h2, hcs2]
            rw [he]
            refine ⟨by norm_num, ?_, by simp, fun s _ => rfl, fun hyp => ?_⟩
            · simp [List.range_succ, h0, h1, isExcAttempt]
            · have := hyp 2 (by decide)
              rw [h2] at this
              simp [CookieAttempt.succeeds, hcs2] at this
          case true =>
            have he : capture_cookies_visible_browser att =
                ⟨none, "All cookie capture attempts failed", [2], 3⟩ := by
              simp [capture_cookies_visible_browser, captureAux, h0, hcs0, h1, h2, hcs2]
            rw [he]
            refine ⟨by norm_num, ?_, fun _ => by decide, by simp, fun _ => ⟨rfl, rfl⟩⟩
            simp [List.range_succ, h0, h1, isExcAttempt]
        case exc =>
          have he : capture_cookies_visible_browser att =
              ⟨none, "Attempt " ++ toString 3 ++ "/" ++ toString 3 ++ " failed: " ++ m2,
                [2], 3⟩ := by
            simp [capture_cookies_visible_browser, captureAux, h0, hcs0, h1, h2]
          rw [he]
          refine ⟨by norm_num, ?_, fun _ => ne_empty_of_head _ 'A' rfl, by simp,
            fun _ => ⟨rfl, rfl⟩⟩
          simp [List.range_succ, h0, h1, isExcAttempt]
  case exc =>
    rcases h1 : att 1 with m1 | cs1
    case got =>
      cases hcs1 : cs1.isEmpty
      case false =>
        have he : capture_cookies_visible_browser att =
            ⟨some (cookieString cs1), "", [1], 2⟩ := by
          simp [capture_cookies_visible_browser, captureAux, h0, h1, hcs1]
        rw [he]
        refine ⟨by norm_num, ?_, by simp, fun s _ => rfl, fun hyp => ?_⟩
        · simp [List.range_succ, h0, isExcAttempt]
        · have := hyp 1 (by decide)
          rw [h1] at this
          simp [CookieAttempt.succeeds, hcs1] at this
      case true =>
        rcases h2 : att 2 with m2 | cs2
        case got =>
          cases hcs2 : cs2.isEmpty
          case false =>
            have he : capture_cookies_visible_browser att =
                ⟨some (cookieString cs2), "", [1], 3⟩ := by
              simp [capture_cookies_visible_browser, captureAux, h0, h1, hcs1, h2, hcs2]
            rw [he]
            refine ⟨by norm_num, ?_, by simp, fun s _ => rfl, fun hyp => ?_⟩
            · simp [List.range_succ, h0, h1, isExcAttempt]
            · have := hyp 2 (by decide)
              rw [h2] at this
              simp [CookieAttempt.succeeds, hcs2] at this
          case true =>
            have he : capture_cookies_visible_browser att =
                ⟨none, "All cookie capture attempts failed", [1], 3⟩ := by
              simp [capture_cookies_visible_browser, captureAux, h0, h1, hcs1, h2, hcs2]
            rw [he]
            refine ⟨by norm_num, ?_, fun _ => by decide, by simp, fun _ => ⟨rfl, rfl⟩⟩
            simp [List.range_succ, h0, h1, isExcAttempt]
        case exc =>
          have he : capture_cookies_visible_browser att =
              ⟨none, "Attempt " ++ toString 3 ++ "/" ++ toString 3 ++ " failed: " ++ m2,
                [1], 3⟩ := by
            simp [capture_cookies_visible_browser, captureAux, h0, h1, hcs1, h2]
          rw [he]
          refine ⟨by norm_num, ?_, fun _ => ne_empty_of_head _ 'A' rfl, by simp,
            fun _ => ⟨rfl, rfl⟩⟩
          simp [List.range_succ, h0, h1, isExcAttempt]
    case exc =>
      rcases h2 : att 2 with m2 | cs2
      case got =>
        cases hcs2 : cs2.isEmpty
        case false =>
          have he : capture_cookies_visible_browser att =
              ⟨some (cookieString cs2), "", [1, 2], 3⟩ := by
            simp [capture_cookies_visible_browser, captureAux, h0, h1, h2, hcs2]
          rw [he]
          refine ⟨by norm_num, ?_, by simp, fun s _ => rfl, fun hyp => ?_⟩
          · simp [List.range_succ, h0, h1, isExcAttempt]
          · have := hyp 2 (by decide)
            rw [h2] at this
            simp [CookieAttempt.succeeds, hcs2] at this
        case true =>
          have he : capture_cookies_visible_browser att =
              ⟨none, "All cookie capture attempts failed", [1, 2], 3⟩ := by
            simp [capture_cookies_visible_browser, captureAux, h0, h1, h2, hcs2]
          rw [he]
          refine ⟨by norm_num, ?_, fun _ => by decide, by simp, fun _ => ⟨rfl, rfl⟩⟩
          simp [List.range_succ, h0, h1, isExcAttempt]
      case exc =>
        have he : capture_cookies_visible_browser att =
            ⟨none, "Attempt " ++ toString 3 ++ "/" ++ toString 3 ++ " failed: " ++ m2,
              [1, 2], 3⟩ := by
          simp [capture_cookies_visible_browser, captureAux, h0, h1, h2]
        rw [he]
        refine ⟨by norm_num, ?_, fun _ => ne_empty_of_head _ 'A' rfl, by simp,
          fun _ => ⟨rfl, rfl⟩⟩
        simp [List.range_succ, h0, h1, isExcAttempt]

/-- Witness for C6 amended: three attempts that all raise make exactly 3
attempts, return the failure marker with a non-empty message, and (from
the theorem) satisfy the sleep characterisation. -/
theorem capture_amended_witness :
    (capture_cookies_visible_browser (fun _ => CookieAttempt.exc "boom")).cookie = none
    ∧ (∀ a, a < 3 → ((fun _ => CookieAttempt.exc "boom") a).succeeds = false)
    ∧ (capture_cookies_visible_browser (fun _ => CookieAttempt.exc "boom")).error ≠ ""
    ∧ (capture_cookies_visible_browser (fun _ => CookieAttempt.exc "boom")).attemptsMade = 3 := by
  have h := capture_amended (fun _ => CookieAttempt.exc "boom")
  exact ⟨rfl, fun a _ => rfl, h.2.2.1 rfl, (h.2.2.2.2 (fun a _ => rfl)).1⟩

theorem fetchAux_zero_eq (out : Nat → FetchOutcome) (jit : Nat → ℚ) (a : Nat) (s : List ℚ) :
    fetchAux out jit a 0 s = ⟨.error "max_retries_exceeded", s, a⟩ := rfl

theorem fetchAux_rl_step (out : Nat → FetchOutcome) (jit : Nat → ℚ) (a r : Nat) (s : List ℚ)
    (h : out a = .rateLimited) :
    fetchAux out jit a (r + 1) s = fetchAux out jit (a + 1) r (s ++ [(2 : ℚ) ^ a + jit a]) := by
  rw [fetchAux]
  simp only [h]

theorem fetchAux_ok_step (out : Nat → FetchOutcome) (jit : Nat → ℚ) (a r : Nat) (s : List ℚ)
    (body : Json) (h : out a = .ok body) :
    fetchAux out jit a (r + 1) s = ⟨.ok body, s, a + 1⟩ := by
  rw [fetchAux]
  simp only [h]

theorem fetchAux_exc_step_retry (out : Nat → FetchOutcome) (jit : Nat → ℚ) (a r : Nat)
    (s : List ℚ) (msg : String) (h : out a = .exc msg) (hlt : a < RETRIES - 1) :
    fetchAux out jit a (r + 1) s = fetchAux out jit (a + 1) r (s ++ [(2 : ℚ) ^ a + jit a]) := by
  rw [fetchAux]
  simp only [h, if_pos hlt]

theorem fetchAux_exc_step_stop (out : Nat → FetchOutcome) (jit : Nat → ℚ) (a r : Nat)
    (s : List ℚ) (msg : String) (h : out a = .exc msg) (hlt : ¬ a < RETRIES - 1) :
    fetchAux out jit a (r + 1) s = ⟨.error msg, s, a + 1⟩ := by
  rw [fetchAux]
  simp only [h, if_neg hlt]

theorem fetchAux_other_step (out : Nat → FetchOutcome) (jit : Nat → ℚ) (a r : Nat)
    (s : List ℚ) (code : Nat) (h : out a = .otherStatus code) :
    fetchAux out jit a (r + 1) s = ⟨.error ("status_" ++ toString code), s, a + 1⟩ := by
  rw [fetchAux]
  simp only [h]

theorem fetchAux_sleeps_extend (out : Nat → FetchOutcome) (jit : Nat → ℚ) :
    ∀ (r a : Nat) (s : List ℚ), ∃ t, (fetchAux out jit a r s).sleeps = s ++ t := by
  intro r
  induction r with
  | zero => intro a s; exact ⟨[], by simp [fetchAux_zero_eq]⟩
  | succ r ih =>
    intro a s
    cases hout : out a with
    | ok body => exact ⟨[], by rw [fetchAux_ok_step out jit a r s body hout]; simp⟩
    | rateLimited =>
      obtain ⟨t, htt⟩ := ih (a + 1) (s ++ [(2 : ℚ) ^ a + jit a])
      refine ⟨((2 : ℚ) ^ a + jit a) :: t, ?_⟩
      rw [fetchAux_rl_step out jit a r s hout, htt]
      simp
    | otherStatus code =>
      exact ⟨[], by rw [fetchAux_other_step out jit a r s code hout]; simp⟩
    | exc msg =>
      by_cases hlt : a < RETRIES - 1
      · obtain ⟨t, htt⟩ := ih (a + 1) (s ++ [(2 : ℚ) ^ a + jit a])
        refine ⟨((2 : ℚ) ^ a + jit a) :: t, ?_⟩
        rw [fetchAux_exc_step_retry out jit a r s msg hout hlt, htt]
        simp
      · exact ⟨[], by rw [fetchAux_exc_step_stop out jit a r s msg hout hlt]; simp⟩

theorem fetchAux_rl_run (out : Nat → FetchOutcome) (jit : Nat → ℚ) :
    ∀ (k a r : Nat) (s : List ℚ), k ≤ r →
      (∀ i, i < k → out (a + i) = .rateLimited) →
      fetchAux out jit a r s =
        fetchAux out jit (a + k) (r - k)
          (s ++ (List.range' a k).map (fun i => (2 : ℚ) ^ i + jit i)) := by
  intro k
  induction k with
  | zero => intro a r s _ _; simp
  | succ k ih =>
    intro a r s hkr hrl
    match r, hkr with
    | r + 1, hkr =>
      have h0 : out a = .rateLimited := by simpa using hrl 0 (Nat.succ_pos k)
      rw [fetchAux_rl_step out jit a r s h0,
        ih (a + 1) r (s ++ [(2 : ℚ) ^ a + jit a]) (Nat.le_of_succ_le_succ hkr)
          (fun i hi => by
            have := hrl (i + 1) (Nat.succ_lt_succ hi)
            simpa [Nat.add_assoc, Nat.add_comm 1 i] using this)]
      have harith : a + 1 + k = a + (k + 1) := by omega
      have harith2 : r - k = r + 1 - (k + 1) := by omega
      rw [harith, harith2, List.range'_succ]
      simp

/-- C4: for every page fetch whose first `N` responses are consecutive
rate-limits (`N` below the retry limit), the backoff slept before the
`N`-th retry is `2^(N-1)` plus the (non-negative) jitter, hence at least
`2^(N-1)` seconds excluding jitter; and a page receiving only rate-limit
responses terminates with the explicit failure `max_retries_exceeded`
after exactly `RETRIES = 5` attempts. -/
theorem fetch_backoff_and_exhaustion (out : Nat → FetchOutcome) (jit : Nat → ℚ)
    (hjit : ∀ i, 0 ≤ jit i) (N : Nat) (h1 : 1 ≤ N) (h5 : N < RETRIES)
    (hout : ∀ i, i < N → out i = .rateLimited) :
    (N ≤ (fetch_page_json out jit).sleeps.length
      ∧ (2 : ℚ) ^ (N - 1) ≤ (fetch_page_json out jit).sleeps.getD (N - 1) 0)
    ∧ ((∀ i, i < RETRIES → out i = .rateLimited) →
        (fetch_page_json out jit).result = .error "max_retries_exceeded"
          ∧ (fetch_page_json out jit).attemptsMade = RETRIES
          ∧ (fetch_page_json out jit).sleeps.length = RETRIES) := by
  constructor
  · have key := fetchAux_rl_run out jit N 0 RETRIES [] (le_of_lt h5)
      (fun i hi => by simpa using hout i hi)
    obtain ⟨t, htt⟩ := fetchAux_sleeps_extend out jit (RETRIES - N) (0 + N)
      ([] ++ (List.range' 0 N).map (fun i => (2 : ℚ) ^ i + jit i))
    have hs : (fetch_page_json out jit).sleeps =
        (List.range' 0 N).map (fun i => (2 : ℚ) ^ i + jit i) ++ t := by
      rw [fetch_page_json, key]
      simpa using htt
    constructor
    · rw [hs]
      simp
    · rw [hs]
      have hlt : N - 1 < ((List.range' 0 N).map (fun i => (2 : ℚ) ^ i + jit i)).length := by
        simp
        omega
      rw [List.getD_append _ _ _ _ hlt]
      have hval : ((List.range' 0 N).map (fun i => (2 : ℚ) ^ i + jit i)).getD (N - 1) 0 =
          (2 : ℚ) ^ (N - 1) + jit (N - 1) := by
        rw [List.getD_eq_getElem?_getD, List.getElem?_map,
          List.getElem?_range' 0 1 (by omega)]
        simp
      rw [hval]
      have := hjit (N - 1)
      linarith
  · intro hall
    have key := fetchAux_rl_run out jit RETRIES 0 RETRIES [] le_rfl
      (fun i hi => by simpa using hall i hi)
    simp only [Nat.sub_self, Nat.zero_add, List.nil_append] at key
    rw [fetch_page_json, key, fetchAux_zero_eq]
    refine ⟨rfl, by simp [RETRIES], by simp [RETRIES]⟩

/-- Witness for C4: five straight rate-limit responses with zero jitter,
instantiated at `N = 3`. -/
theorem fetch_backoff_witness :
    (∀ i, (0 : ℚ) ≤ (fun _ : Nat => (0 : ℚ)) i)
    ∧ 1 ≤ 3 ∧ 3 < RETRIES
    ∧ (∀ i, i < 3 → (fun _ : Nat => FetchOutcome.rateLimited) i = FetchOutcome.rateLimited)
    ∧ ((3 ≤ (fetch_page_json (fun _ : Nat => FetchOutcome.rateLimited) (fun _ : Nat => (0 : ℚ))).sleeps.length
        ∧ (2 : ℚ) ^ (3 - 1) ≤
            (fetch_page_json (fun _ : Nat => FetchOutcome.rateLimited) (fun _ : Nat => (0 : ℚ))).sleeps.getD (3 - 1) 0)
      ∧ ((∀ i, i < RETRIES → (fun _ : Nat => FetchOutcome.rateLimited) i = FetchOutcome.rateLimited) →
          (fetch_page_json (fun _ : Nat => FetchOutcome.rateLimited) (fun _ : Nat => (0 : ℚ))).result
              = .error "max_retries_exceeded"
            ∧ (fetch_page_json (fun _ : Nat => FetchOutcome.rateLimited) (fun _ : Nat => (0 : ℚ))).attemptsMade = RETRIES
            ∧ (fetch_page_json (fun _ : Nat => FetchOutcome.rateLimited) (fun _ : Nat => (0 : ℚ))).sleeps.length = RETRIES)) :=
  ⟨fun _ => le_refl 0, by decide, by decide, fun _ _ => rfl,
    fetch_backoff_and_exhaustion (fun _ : Nat => FetchOutcome.rateLimited) (fun _ : Nat => (0 : ℚ))
      (fun _ => le_refl 0) 3 (by decide) (by decide) (fun _ _ => rfl)⟩

theorem windowsAux_flatten (total : Nat) :
    ∀ (fuel start : Nat), total + 1 - start ≤ fuel →
      (windowsAux total fuel start).flatten = List.range' start (total + 1 - start) := by
  intro fuel
  induction fuel with
  | zero =>
    intro start hf
    have h0 : total + 1 - start = 0 := Nat.le_zero.mp hf
    simp [windowsAux, h0]
  | succ fuel ih =>
    intro start hf
    unfold windowsAux
    by_cases hs : start ≤ total
    · rw [if_pos hs]
      rw [List.flatten_cons, ih (start + WINDOW) (by unfold WINDOW; omega)]
      unfold pageWindow WINDOW
      rcases le_or_lt (start + 50) (total + 1) with hle | hlt
      · have hm : min (start + 50) (total + 1) - start = 50 := by omega
        rw [hm]
        have := List.range'_append start 50 (total + 1 - (start + 50)) 1
        simp only [Nat.one_mul] at this
        rw [this]
        congr 1
        omega
      · have hm : min (start + 50) (total + 1) - start = total + 1 - start := by omega
        have hn : total + 1 - (start + 50) = 0 := by omega
        rw [hm, hn]
        simp
    · rw [if_neg hs]
      have h0 : total + 1 - start = 0 := by omega
      simp [h0]

theorem windowsAux_mem (total : Nat) :
    ∀ (fuel start : Nat), ∀ w ∈ windowsAux total fuel start, w.length ≤ WINDOW ∧ w ≠ [] := by
  intro fuel
  induction fuel with
  | zero => intro start w hw; simp [windowsAux] at hw
  | succ fuel ih =>
    intro start w hw
    unfold windowsAux at hw
    by_cases hs : start ≤ total
    · rw [if_pos hs] at hw
      rcases List.mem_cons.mp hw with hw | hw
      · subst hw
        constructor
        · unfold pageWindow WINDOW
          rw [List.length_range']
          omega
        · unfold pageWindow
          have : (List.range' start (min (start + WINDOW) (total + 1) - start)).length ≠ 0 := by
            rw [List.length_range']
            unfold WINDOW
            omega
          exact fun hnil => this (by rw [hnil]; rfl)
      · exact ih (start + WINDOW) w hw
    · rw [if_neg hs] at hw
      simp at hw

theorem runWindows_eq_foldl (total : Nat) (res : Nat → Bool × Nat) :
    ∀ (fuel start : Nat) (acc : Nat × Nat),
      runWindows res total fuel start acc =
        ((windowsAux total fuel start).flatten).foldl
          (fun a p => if (res p).1 then (a.1 + 1, a.2 + (res p).2) else a) acc := by
  intro fuel
  induction fuel with
  | zero => intro start acc; simp [runWindows, windowsAux]
  | succ fuel ih =>
    intro start acc
    unfold runWindows windowsAux
    by_cases hs : start ≤ total
    · rw [if_pos hs, if_pos hs, List.flatten_cons, List.foldl_append, ih]
      congr 1
      unfold tallyWindow
      rw [List.foldl_map]
    · rw [if_neg hs, if_neg hs]
      rfl

theorem foldl_tally (res : Nat → Bool × Nat) :
    ∀ (ps : List Nat) (a b : Nat),
      ps.foldl (fun a p => if (res p).1 then (a.1 + 1, a.2 + (res p).2) else a) (a, b) =
        (a + (ps.filter (fun p => (res p).1)).length,
          b + ((ps.filter (fun p => (res p).1)).map (fun p => (res p).2)).sum) := by
  intro ps
  induction ps with
  | nil => intro a b; simp
  | cons p ps ih =>
    intro a b
    by_cases hp : (res p).1 = true
    · simp only [List.foldl_cons]
      rw [if_pos hp]
      simp only [List.filter_cons, hp, if_true, ih]
      simp only [List.length_cons, List.map_cons, List.sum_cons, Prod.mk.injEq]
      constructor <;> omega
    · have hp' : (res p).1 = false := by simpa using hp
      simp only [List.foldl_cons]
      rw [if_neg (by simp [hp'])]
      simp only [List.filter_cons, hp', Bool.false_eq_true, if_false]
      exact ih a b

/-- C3: for every `totalPages ≥ 1`, `CompanyFetcher.run` processes exactly
the pages `1..totalPages`, each once and in order (the flattened window
list is `range' 1 total`), grouped into non-empty windows of at most 50
pages awaited window-by-window; and it returns `(pagesFetched,
recordsWritten)` where `pagesFetched` counts exactly the successful pages
and `recordsWritten` sums the record counts over exactly those pages — so
a failed page contributes zero records and removes no other page from any
window. -/
theorem run_aggregates_windows (total : Nat) (res : Nat → Bool × Nat) (h : 1 ≤ total) :
    (runWindowList total).flatten = List.range' 1 total
    ∧ (∀ w ∈ runWindowList total, w.length ≤ WINDOW ∧ w ≠ [])
    ∧ CompanyFetcher.run total res
        = (specPagesFetched total res, specRecordsWritten total res) := by
  refine ⟨?_, fun w hw => windowsAux_mem total (total + 1) 1 w hw, ?_⟩
  · unfold runWindowList
    rw [windowsAux_flatten total (total + 1) 1 (by omega)]
    simp
  · unfold CompanyFetcher.run
    rw [runWindows_eq_foldl, windowsAux_flatten total (total + 1) 1 (by omega)]
    have h2 : total + 1 - 1 = total := by omega
    rw [h2, foldl_tally]
    simp [specPagesFetched, specRecordsWritten]

/-- Witness for C3: a 60-page run (two windows, of 50 and 10 pages) where
every third page succeeds carrying its page number as record count:
20 pages fetched, 630 records written. -/
theorem run_aggregates_windows_witness :
    1 ≤ 60
    ∧ CompanyFetcher.run 60 (fun p => (p % 3 == 0, p)) = (20, 630)
    ∧ ((runWindowList 60).flatten = List.range' 1 60
      ∧ (∀ w ∈ runWindowList 60, w.length ≤ WINDOW ∧ w ≠ [])
      ∧ CompanyFetcher.run 60 (fun p => (p % 3 == 0, p))
          = (specPagesFetched 60 (fun p => (p % 3 == 0, p)),
              specRecordsWritten 60 (fun p => (p % 3 == 0, p)))) :=
  ⟨by decide, by decide,
    run_aggregates_windows 60 (fun p => (p % 3 == 0, p)) (by decide)⟩

theorem applyOutcome_last (p : Progress) (r : CompanyResult) (i : Nat) :
    (applyOutcome p r i).last_index = (i : Int) := by
  unfold applyOutcome
  split <;> rfl

theorem batchLoop_attempted (runC : Nat → String → CompanyResult) (cs : List String) :
    ∀ (idxs : List Nat) (prog : Progress) (saves : List Progress) (att : List Nat) (sk : Nat),
      (batchLoop runC cs idxs prog saves att sk).attempted =
        att ++ idxs.filter (nonBlank cs) := by
  intro idxs
  induction idxs with
  | nil => intro prog saves att sk; simp [batchLoop]
  | cons i rest ih =>
    intro prog saves att sk
    simp only [batchLoop]
    by_cases hb : targetAt cs i = ""
    · rw [if_pos hb, ih]
      have hnb : nonBlank cs i = false := by simp [nonBlank, hb]
      simp [List.filter_cons, hnb]
    · rw [if_neg hb, ih]
      have hnb : nonBlank cs i = true := by simp [nonBlank, hb]
      simp [List.filter_cons, hnb]

theorem batchLoop_saves (runC : Nat → String → CompanyResult) (cs : List String) :
    ∀ (idxs : List Nat) (prog : Progress) (saves : List Progress) (att : List Nat) (sk : Nat),
      (batchLoop runC cs idxs prog saves att sk).saves =
        saves ++ savesFor runC cs prog (idxs.filter (nonBlank cs)) := by
  intro idxs
  induction idxs with
  | nil => intro prog saves att sk; simp [batchLoop, savesFor]
  | cons i rest ih =>
    intro prog saves att sk
    simp only [batchLoop]
    by_cases hb : targetAt cs i = ""
    · rw [if_pos hb, ih]
      have hnb : nonBlank cs i = false := by simp [nonBlank, hb]
      simp [List.filter_cons, hnb]
    · rw [if_neg hb, ih]
      have hnb : nonBlank cs i = true := by simp [nonBlank, hb]
      simp only [List.filter_cons, hnb, if_true, savesFor, applyOutcome]
      simp

theorem batchLoop_final (runC : Nat → String → CompanyResult) (cs : List String) :
    ∀ (idxs : List Nat) (prog : Progress) (saves : List Progress) (att : List Nat) (sk : Nat),
      (batchLoop runC cs idxs prog saves att sk).final =
        (idxs.filter (nonBlank cs)).foldl
          (fun p i => applyOutcome p (runC i (targetAt cs i)) i) prog := by
  intro idxs
  induction idxs with
  | nil => intro prog saves att sk; simp [batchLoop]
  | cons i rest ih =>
    intro prog saves att sk
    simp only [batchLoop]
    by_cases hb : targetAt cs i = ""
    · rw [if_pos hb, ih]
      have hnb : nonBlank cs i = false := by simp [nonBlank, hb]
      simp [List.filter_cons, hnb]
    · rw [if_neg hb, ih]
      have hnb : nonBlank cs i = true := by simp [nonBlank, hb]
      simp only [List.filter_cons, hnb, if_true, List.foldl_cons, applyOutcome]

theorem savesFor_map_last (runC : Nat → String → CompanyResult) (cs : List String) :
    ∀ (l : List Nat) (p : Progress),
      (savesFor runC cs p l).map Progress.last_index = l.map Int.ofNat := by
  intro l
  induction l with
  | nil => intro p; simp [savesFor]
  | cons i rest ih =>
    intro p
    simp only [savesFor, List.map_cons, applyOutcome_last, ih]
    rfl

theorem savesFor_length (runC : Nat → String → CompanyResult) (cs : List String) :
    ∀ (l : List Nat) (p : Progress), (savesFor runC cs p l).length = l.length := by
  intro l
  induction l with
  | nil => intro p; rfl
  | cons i rest ih => intro p; simp [savesFor, ih]

theorem foldl_applyOutcome_processed (runC : Nat → String → CompanyResult) (cs : List String) :
    ∀ (l : List Nat) (prog : Progress),
      (l.foldl (fun p i => applyOutcome p (runC i (targetAt cs i)) i) prog).processed =
        prog.processed ++
          ((l.map (fun i => runC i (targetAt cs i))).filter (fun r => r.success)) := by
  intro l
  induction l with
  | nil => intro prog; simp
  | cons i rest ih =>
    intro prog
    simp only [List.foldl_cons, List.map_cons, List.filter_cons, ih]
    by_cases hsucc : (runC i (targetAt cs i)).success = true
    · simp [applyOutcome, hsucc]
    · have h' : (runC i (targetAt cs i)).success = false := by simpa using hsucc
      simp [applyOutcome, h']

theorem foldl_applyOutcome_failed (runC : Nat → String → CompanyResult) (cs : List String) :
    ∀ (l : List Nat) (prog : Progress),
      (l.foldl (fun p i => applyOutcome p (runC i (targetAt cs i)) i) prog).failed =
        prog.failed ++
          ((l.map (fun i => runC i (targetAt cs i))).filter (fun r => !r.success)) := by
  intro l
  induction l with
  | nil => intro prog; simp
  | cons i rest ih =>
    intro prog
    simp only [List.foldl_cons, List.map_cons, List.filter_cons, ih]
    by_cases hsucc : (runC i (targetAt cs i)).success = true
    · simp [applyOutcome, hsucc]
    · have h' : (runC i (targetAt cs i)).success = false := by simpa using hsucc
      simp [applyOutcome, h']

/-- C1: in resume mode with a persisted checkpoint whose `last_index` is
`k`, `process_batch` attempts exactly the non-blank targets with indices in
`range(k + 1, total)` — beginning at `k + 1` and never re-attempting any
index ≤ `k` — while a run not in resume mode attempts exactly the
non-blank targets of `range(0, total)`, beginning at index 0. -/
theorem resume_skips_completed (runC : Nat → String → CompanyResult)
    (companies : List String) (loaded : Progress) (k : Int)
    (hk : -1 ≤ k) (hlast : loaded.last_index = k) :
    (process_batch runC companies true loaded).attempted =
        (List.range' (k + 1).toNat (companies.length - (k + 1).toNat)).filter
          (nonBlank companies)
    ∧ (∀ i ∈ (process_batch runC companies true loaded).attempted, k + 1 ≤ (i : Int))
    ∧ (process_batch runC companies false loaded).attempted =
        (List.range' 0 companies.length).filter (nonBlank companies) := by
  have e1 : (process_batch runC companies true loaded).attempted =
      (List.range' (k + 1).toNat (companies.length - (k + 1).toNat)).filter
        (nonBlank companies) := by
    simp only [process_batch, if_true, hlast]
    rw [batchLoop_attempted]
    simp
  refine ⟨e1, ?_, ?_⟩
  · intro i hi
    rw [e1] at hi
    have hmem := List.mem_of_mem_filter hi
    have hle : (k + 1).toNat ≤ i := (List.mem_range'_1.mp hmem).1
    omega
  · simp only [process_batch, if_false, Int.toNat_zero]
    rw [batchLoop_attempted]
    simp

/-- Witness for C1: four targets (the second blank), checkpoint
`last_index = 1`; the resume run attempts exactly indices 2 and 3, the
non-resume run attempts 0, 2, 3. -/
theorem resume_skips_completed_witness :
    (-1 : Int) ≤ 1
    ∧ (⟨[], [], 1⟩ : Progress).last_index = 1
    ∧ (process_batch (fun i u => ⟨true, u, i⟩) ["a", "", "b", "c"] true ⟨[], [], 1⟩).attempted
        = [2, 3]
    ∧ (process_batch (fun i u => ⟨true, u, i⟩) ["a", "", "b", "c"] false ⟨[], [], 1⟩).attempted
        = [0, 2, 3]
    ∧ ((process_batch (fun i u => ⟨true, u, i⟩) ["a", "", "b", "c"] true ⟨[], [], 1⟩).attempted =
          (List.range' ((1 : Int) + 1).toNat
            (["a", "", "b", "c"].length - ((1 : Int) + 1).toNat)).filter
              (nonBlank ["a", "", "b", "c"])
        ∧ (∀ i ∈ (process_batch (fun i u => ⟨true, u, i⟩) ["a", "", "b", "c"] true
              ⟨[], [], 1⟩).attempted, (1 : Int) + 1 ≤ (i : Int))
        ∧ (process_batch (fun i u => ⟨true, u, i⟩) ["a", "", "b", "c"] false ⟨[], [], 1⟩).attempted =
            (List.range' 0 (["a", "", "b", "c"].length)).filter (nonBlank ["a", "", "b", "c"])) :=
  ⟨by decide, rfl, by decide, by decide,
    resume_skips_completed (fun i u => ⟨true, u, i⟩) ["a", "", "b", "c"] ⟨[], [], 1⟩ 1
      (by decide) rfl⟩

/-- C2: in every run, one checkpoint is saved per attempted target — the
saved sequence is exactly the per-attempt checkpoint sequence `savesFor`
(each element the full checkpoint, with the outcome appended and
`last_index` set, after the corresponding attempt and before the next
one); each saved `last_index` equals the attempted index; and the saved
`last_index` values are monotonically non-decreasing within the run. -/
theorem checkpoint_saved_after_each_attempt (runC : Nat → String → CompanyResult)
    (companies : List String) (resume : Bool) (loaded : Progress) :
    (process_batch runC companies resume loaded).saves =
        savesFor runC companies loaded (process_batch runC companies resume loaded).attempted
    ∧ (process_batch runC companies resume loaded).saves.length =
        (process_batch runC companies resume loaded).attempted.length
    ∧ (process_batch runC companies resume loaded).saves.map Progress.last_index =
        (process_batch runC companies resume loaded).attempted.map Int.ofNat
    ∧ List.Pairwise (· ≤ ·)
        ((process_batch runC companies resume loaded).saves.map Progress.last_index) := by
  simp only [process_batch, batchLoop_saves, batchLoop_attempted, List.nil_append]
  refine ⟨trivial, savesFor_length runC companies _ loaded, savesFor_map_last runC companies _ loaded, ?_⟩
  rw [savesFor_map_last]
  have hp : List.Pairwise (· < ·) (List.range'
      ((if resume then loaded.last_index + 1 else 0).toNat)
      (companies.length - (if resume then loaded.last_index + 1 else 0).toNat)) :=
    List.pairwise_lt_range' _ _
  have hpf := hp.filter (nonBlank companies)
  exact hpf.map Int.ofNat (fun a b hab => le_of_lt (Int.ofNat_lt.mpr hab))

/-- C10: a non-resume run over an existing checkpoint still starts from
that loaded checkpoint and appends this run's outcomes to the previously
persisted `processed` and `failed` lists, in order; prior entries are
never removed, so the lists accumulate across repeated non-resume runs. -/
theorem nonresume_appends_to_loaded (runC : Nat → String → CompanyResult)
    (companies : List String) (loaded : Progress) :
    load_batch_progress (some (some loaded)) = loaded
    ∧ (process_batch runC companies false (load_batch_progress (some (some loaded)))).final.processed
        = loaded.processed ++
          (((process_batch runC companies false loaded).attempted.map
              (fun i => runC i (targetAt companies i))).filter (fun r => r.success))
    ∧ (process_batch runC companies false (load_batch_progress (some (some loaded)))).final.failed
        = loaded.failed ++
          (((process_batch runC companies false loaded).attempted.map
              (fun i => runC i (targetAt companies i))).filter (fun r => !r.success)) := by
  refine ⟨rfl, ?_, ?_⟩
  · simp only [load_batch_progress, process_batch, batchLoop_final, batchLoop_attempted,
      List.nil_append]
    exact foldl_applyOutcome_processed runC companies _ loaded
  · simp only [load_batch_progress, process_batch, batchLoop_final, batchLoop_attempted,
      List.nil_append]
    exact foldl_applyOutcome_failed runC companies _ loaded

end WebCrawler
